import Mathlib

/-!
Verification of the plugin-update orchestration module of the Karin repository
(`src/unnamed/part_001`).  The TypeScript functions are shallowly embedded in
Lean: every external shell invocation is a suspension point that consumes the
next entry of an oracle trace carried in a `World`, JS exceptions are modelled
with `Except`, and `string | undefined` values are modelled as `Option String`.
The concurrent `Promise.all` probe phase of `updateAllPkg` is serialized in
listing order: every per-item closure runs (all its commands execute), and the
aggregate rejection, when one exists, is the first rejection in that order,
matching the behaviour that `Promise.all` rejects while the remaining started
probes still run to completion unobserved; the theorems stated about that
phase (the sentinel, the rejected aggregate, the permutation report) do not
depend on which probe order is chosen.  The `Promise.allSettled` phase of
`updateAllGitPlugin` pushes each outcome line only after its plugin's
concurrent update completes, so line order is completion order, which the code
does not constrain: that phase is parameterized by an explicit completion
schedule, and theorems about its report quantify over all schedules that
enumerate every listing index exactly once.
-/

/-- Decides whether `l` starts with `p`, elementwise. -/
def listStartsWith [DecidableEq α] : List α → List α → Bool
  | _, [] => true
  | [], _ :: _ => false
  | a :: as, b :: bs => a = b && listStartsWith as bs

/-- Decides whether `sub` occurs contiguously inside `l`. -/
def listHasInfix [DecidableEq α] (l sub : List α) : Bool :=
  match l with
  | [] => listStartsWith ([] : List α) sub
  | _ :: rest => listStartsWith l sub || listHasInfix rest sub

/-- JS `String.prototype.includes`: substring occurrence test. -/
def strHasSub (s sub : String) : Bool :=
  listHasInfix s.toList sub.toList

/-- Removes the first (leftmost) occurrence of `pat` from `l`; `none` if absent. -/
def listRemoveOnce [DecidableEq α] (pat : List α) : List α → Option (List α)
  | [] => if pat = [] then some [] else none
  | c :: rest =>
    if listStartsWith (c :: rest) pat then some ((c :: rest).drop pat.length)
    else match listRemoveOnce pat rest with
      | some r => some (c :: r)
      | none => none

/-- JS `s.replace(pat, '')` with a string pattern: only the first occurrence is
removed; the string is returned unchanged when the pattern does not occur. -/
def jsReplaceOnce (s pat : String) : String :=
  match listRemoveOnce pat.toList s.toList with
  | some r => String.mk r
  | none => s

/-- Lookup in a JS object modelled as an association list (keys unique). -/
def lookupAssoc (l : List (String × String)) (k : String) : Option String :=
  match l with
  | [] => none
  | (k0, v) :: rest => if k0 = k then some v else lookupAssoc rest k

/-- JS `obj?.[k]` where `obj` itself may be `undefined`. -/
def optLookup (o : Option (List (String × String))) (k : String) : Option String :=
  match o with
  | none => none
  | some l => lookupAssoc l k

/-- JS `a || b` on `string | undefined` values: `a` wins unless it is absent or
the empty string (the only falsy strings). -/
def jsOrOpt (a b : Option String) : Option String :=
  match a with
  | some s => if s = "" then b else some s
  | none => b

/-- JS template interpolation of a `string | undefined` value: `undefined`
prints as the literal text `undefined`. -/
def fmtOpt : Option String → String
  | some s => s
  | none => "undefined"

/-- JS truthiness of a `string | undefined` value. -/
def optTruthy : Option String → Bool
  | some s => s ≠ ""
  | none => false

/-- JS `String.prototype.trim`, modelled as dropping leading and trailing
whitespace characters. -/
def jsTrim (s : String) : String :=
  String.mk (((s.toList.dropWhile Char.isWhitespace).reverse.dropWhile Char.isWhitespace).reverse)

/-- JS `arr.join(sep)`. -/
def joinWith (sep : String) : List String → String
  | [] => ""
  | [x] => x
  | x :: y :: xs => x ++ sep ++ joinWith sep (y :: xs)

/-- Numeric value of a digit run. -/
def natOfDigits (ds : List Char) : Nat :=
  ds.foldl (fun a c => a * 10 + (c.toNat - 48)) 0

/-- Matches the regex fragment `(\d+\.\d+\.\d+)` at the head of `cs`, greedily,
returning the captured text.  Greedy `\d+` followed by a literal dot is exactly
maximal-munch-then-check, since shortening a digit run leaves a digit (not a
dot) as the next character. -/
def matchVersion (cs : List Char) : Option String :=
  let d1 := cs.takeWhile Char.isDigit
  let r1 := cs.dropWhile Char.isDigit
  if d1 = [] then none
  else match r1 with
    | '.' :: r2 =>
      let d2 := r2.takeWhile Char.isDigit
      let r3 := r2.dropWhile Char.isDigit
      if d2 = [] then none
      else match r3 with
        | '.' :: r4 =>
          let d3 := r4.takeWhile Char.isDigit
          if d3 = [] then none
          else some (String.mk (d1 ++ '.' :: d2 ++ '.' :: d3))
        | _ => none
    | _ => none

/-- Helper for `findPkgVersion`: scan for the leftmost position where the
pattern `name@(\d+\.\d+\.\d+)` matches. -/
def findPkgVersionGo (pat : List Char) : List Char → Option String
  | [] => none
  | c :: rest =>
    if listStartsWith (c :: rest) pat then
      match matchVersion ((c :: rest).drop pat.length) with
      | some v => some v
      | none => findPkgVersionGo pat rest
    else findPkgVersionGo pat rest

/-- First match of `new RegExp(name + "@(\\d+\\.\\d+\\.\\d+)", 'gm').exec(data)`
(capture group 1): the leftmost occurrence of `name@` immediately followed by a
three-component dotted number, for names without regex metacharacters. -/
def findPkgVersion (name data : String) : Option String :=
  findPkgVersionGo (name.toList ++ ['@']) data.toList

/-- Tail matcher for the behind-count regex: `' by (\d+) commits` checked at a
candidate split point of the greedy `.*`. -/
def behindTail (cs : List Char) : Option Nat :=
  if listStartsWith cs ("' by ".toList) then
    let rest := cs.drop ("' by ".toList).length
    let ds := rest.takeWhile Char.isDigit
    let rest2 := rest.dropWhile Char.isDigit
    if ds ≠ [] && listStartsWith rest2 (" commits".toList) then some (natOfDigits ds)
    else none
  else none

/-- Greedy `.*` (which cannot cross a newline): prefer the latest split point
at which the tail of the pattern completes. -/
def behindScan : List Char → Option Nat
  | [] => behindTail []
  | c :: rest =>
    if c = '\n' then behindTail (c :: rest)
    else match behindScan rest with
      | some n => some n
      | none => behindTail (c :: rest)

/-- Leftmost start position for `Your branch is behind '.*' by (\d+) commits`. -/
def behindFind : List Char → Option Nat
  | [] => none
  | c :: rest =>
    if listStartsWith (c :: rest) ("Your branch is behind '".toList) then
      match behindScan ((c :: rest).drop ("Your branch is behind '".toList).length) with
      | some n => some n
      | none => behindFind rest
    else behindFind rest

/-- Model of `Number(stdout.match(/Your branch is behind '.*' by (\d+) commits/)?.[1]) || 1`:
an absent match gives `NaN`, a zero capture gives `0`, and both are falsy, so
the fallback `1` applies to them. -/
def behindCount (s : String) : Nat :=
  match behindFind s.toList with
  | some n => if n = 0 then 1 else n
  | none => 1

/-- A JS `Error` / `ExecException` value: the code only ever reads the
`message` and `stack` fields. -/
structure JsError where
  message : String
  stack : Option String
deriving DecidableEq, Repr

/-- A value thrown by JS code in this module: either an `Error`-like object or
the literal `null` (thrown when `getRemotePkgVersion` re-throws a null runner
error). -/
inductive Thrown where
  | js (e : JsError)
  | null
deriving DecidableEq, Repr

/-- Construct a plain `new Error(message)` (its runtime stack is not observed
by any code path modelled here). -/
def jsNewError (message : String) : JsError := ⟨message, none⟩

/-- Modelled from the spec: the Command Runner contract of an external `exec`
helper (its source is not part of the analysed files): it resolves with
`{stdout, stderr, error: Error|null, status: boolean}` and never rejects. -/
structure ExecResult where
  status : Bool
  stdout : String
  error : Option JsError
deriving DecidableEq, Repr

/-- Modelled from the spec: the dependency manifest object exposed by the
external `requireFile('package.json')` helper; each dependency map may itself
be absent from the manifest. -/
structure Package where
  dependencies : Option (List (String × String))
  devDependencies : Option (List (String × String))
  peerDependencies : Option (List (String × String))
deriving DecidableEq, Repr

/-- The external world: an oracle trace of runner responses consumed in call
order, a log of the commands issued so far, the filesystem seen by
`fs.existsSync`, the manifest snapshots returned by successive
`requireFile('package.json')` reads (the batch update can rewrite the file, so
reads are indexed), and the plugin registry listings. -/
structure World where
  responses : Nat → ExecResult
  execCount : Nat
  calls : List String
  fsMap : String → Bool
  pkgs : Nat → Package
  pkgCount : Nat
  npmPlugins : List String
  gitPlugins : List String

/-- Computation model for the embedded async functions: state passing over
`World` with JS exceptions as `Except.error`. -/
def M (α : Type) : Type := World → Except Thrown α × World

/-- Monadic return. -/
def mPure (a : α) : M α := fun w => (Except.ok a, w)

/-- JS `throw`. -/
def mThrow (e : Thrown) : M α := fun w => (Except.error e, w)

/-- Monadic sequencing: an exception aborts the rest of the computation while
the world (commands already issued) persists. -/
def mBind (m : M α) (f : α → M β) : M β := fun w =>
  match m w with
  | (Except.ok a, w1) => f a w1
  | (Except.error e, w1) => (Except.error e, w1)

/-- JS `try { m } catch (e) { h(e) }`: state mutated before the throw persists. -/
def tryCatchM (m : M α) (h : Thrown → M α) : M α := fun w =>
  match m w with
  | (Except.ok a, w1) => (Except.ok a, w1)
  | (Except.error e, w1) => h e w1

theorem mBind_ok {m : M α} {w w1 : World} {a : α} (h : m w = (Except.ok a, w1)) :
    ∀ f : α → M β, mBind m f w = f a w1 := by
  intro f; simp [mBind, h]

theorem mBind_err {m : M α} {w w1 : World} {e : Thrown} (h : m w = (Except.error e, w1)) :
    ∀ f : α → M β, mBind m f w = (Except.error e, w1) := by
  intro f; simp [mBind, h]

theorem tryCatchM_ok {m : M α} {w w1 : World} {a : α} (h : m w = (Except.ok a, w1)) :
    ∀ hnd : Thrown → M α, tryCatchM m hnd w = (Except.ok a, w1) := by
  intro hnd; simp [tryCatchM, h]

theorem tryCatchM_err {m : M α} {w w1 : World} {e : Thrown} (h : m w = (Except.error e, w1)) :
    ∀ hnd : Thrown → M α, tryCatchM m hnd w = hnd e w1 := by
  intro hnd; simp [tryCatchM, h]

/-- World after one runner invocation: the next oracle response is consumed and
the issued command is appended to the call log. -/
def execStep (w : World) (cmd : String) : World :=
  { w with execCount := w.execCount + 1, calls := w.calls ++ [cmd] }

/-- World after one manifest read. -/
def pkgStep (w : World) : World :=
  { w with pkgCount := w.pkgCount + 1 }

/-- Modelled from the spec: the external command runner (`exec` from
`./exec`).  It resolves with the next trace entry and never rejects; working
directory options are threaded by the callers but do not change which trace
entry answers the call. -/
def execM (cmd : String) : M ExecResult := fun w =>
  (Except.ok (w.responses w.execCount), execStep w cmd)

/-- Model of `fs.existsSync`. -/
def fsExistsM (p : String) : M Bool := fun w => (Except.ok (w.fsMap p), w)

/-- Source `getPkg(isForcibly)`: reads `package.json` through the external
`requireFile` helper (modelled from the spec's manifest contract); the force
flag only bypasses a cache and does not change the modelled behaviour. -/
def getPkg (_isForcibly : Bool) : M Package := fun w =>
  (Except.ok (w.pkgs w.pkgCount), pkgStep w)

/-- Modelled from the spec: the Plugin Registry contract
`getPlugins('npm', false)`. -/
def getNpmPluginsM : M (List String) := fun w => (Except.ok w.npmPlugins, w)

/-- Modelled from the spec: the Plugin Registry contract
`getPlugins('git', false)`. -/
def getGitPluginsM : M (List String) := fun w => (Except.ok w.gitPlugins, w)

theorem execM_apply (cmd : String) (w : World) :
    execM cmd w = (Except.ok (w.responses w.execCount), execStep w cmd) := rfl

theorem getPkg_apply (b : Bool) (w : World) :
    getPkg b w = (Except.ok (w.pkgs w.pkgCount), pkgStep w) := rfl

/-- The `npm list` command issued by `getPkgVersion`. -/
def npmListCmd (name : String) : String := "npm list " ++ name ++ " --depth=0"

/-- The `npm show` command issued by `getRemotePkgVersion` for a tag. -/
def npmShowCmd (name tag : String) : String :=
  if tag = "latest" then "npm show " ++ name ++ " version"
  else "npm show " ++ name ++ " dist-tags." ++ tag

/-- The not-installed error thrown on the `empty` / `extraneous` markers. -/
def notInstalledError (name : String) : JsError :=
  jsNewError ("获取失败，" ++ name ++ " 未安装")

/-- Model of `error?.stack?.toString().includes('empty') || ...includes('extraneous')`. -/
def stackHasMarker (e : JsError) : Bool :=
  match e.stack with
  | some s => strHasSub s "empty" || strHasSub s "extraneous"
  | none => false

/-- Continuation of `getPkgVersion` reached when the regex produced no match
(or stdout was empty): inspect the runner error, else fall back to the first
declared version found across the manifest's `dependencies`,
`devDependencies`, `peerDependencies` (a `string | undefined` result, although
the TS signature claims `string`). -/
def getPkgVersionTail (name : String) (r : ExecResult) : M (Option String) :=
  match r.error with
  | some e =>
    if stackHasMarker e then mThrow (Thrown.js (notInstalledError name))
    else mThrow (Thrown.js e)
  | none =>
    mBind (getPkg false) (fun pkg =>
      mPure (jsOrOpt (optLookup pkg.dependencies name)
        (jsOrOpt (optLookup pkg.devDependencies name)
          (optLookup pkg.peerDependencies name))))

/-- Source `getPkgVersion(name)`: local version via `npm list`, with the
`empty`/`extraneous` markers raising a not-installed error, the first
`name@x.y.z` regex match short-circuiting, runner errors re-thrown, and a
manifest fallback otherwise. -/
def getPkgVersion (name : String) : M (Option String) :=
  mBind (execM (npmListCmd name)) (fun r =>
    if r.stdout ≠ "" then
      if strHasSub r.stdout "empty" || strHasSub r.stdout "extraneous" then
        mThrow (Thrown.js (notInstalledError name))
      else
        match findPkgVersion name r.stdout with
        | some v => mPure (some v)
        | none => getPkgVersionTail name r
    else getPkgVersionTail name r)

/-- Source `getRemotePkgVersion(name, tag)`: remote version via `npm show`; on a
falsy exit status the markers raise a not-installed error, otherwise the raw
runner error (possibly `null`) is thrown; on success the trimmed stdout is
returned verbatim. -/
def getRemotePkgVersion (name tag : String) : M String :=
  mBind (execM (npmShowCmd name tag)) (fun r =>
    if !r.status then
      match r.error with
      | some e =>
        if stackHasMarker e then mThrow (Thrown.js (notInstalledError name))
        else mThrow (Thrown.js e)
      | none => mThrow Thrown.null
    else mPure (jsTrim r.stdout))

/-- Result union of `checkPkgUpdate` (the `local` fields keep the
`string | undefined` shape that the implementation can actually produce). -/
inductive CheckPkgResult where
  | yes (loc : Option String) (remote : String)
  | no (loc : Option String)
  | error (e : Thrown)
deriving DecidableEq, Repr

/-- The `try` block of `checkPkgUpdate`. -/
def checkPkgUpdateTry (name : String) : M CheckPkgResult :=
  mBind (getPkgVersion name) (fun loc =>
    mBind (getRemotePkgVersion name "latest") (fun remote =>
      if loc = some remote then mPure (CheckPkgResult.no loc)
      else mPure (CheckPkgResult.yes loc remote)))

/-- Source `checkPkgUpdate(name)`: resolves local and remote, compares with `===`,
and converts every thrown error into a `status: error` result. -/
def checkPkgUpdate (name : String) : M CheckPkgResult :=
  tryCatchM (checkPkgUpdateTry name) (fun e => mPure (CheckPkgResult.error e))

/-- Failure payload of `updatePkg`: a message string or the raw caught value. -/
inductive UpdateData where
  | str (s : String)
  | err (e : Thrown)
deriving DecidableEq, Repr

/-- Result union of `updatePkg`. -/
inductive UpdateResult where
  | failed (data : UpdateData)
  | ok (data : String) (loc : Option String) (remote : String)
deriving DecidableEq, Repr

/-- The `try` block of `updatePkg`. -/
def updatePkgTry (name tag : String) : M UpdateResult :=
  mBind (getPkgVersion name) (fun loc =>
    mBind (getRemotePkgVersion name tag) (fun remote =>
      if loc = some remote then
        mPure (UpdateResult.failed (UpdateData.str
          ("[" ++ name ++ "][无更新] " ++ fmtOpt loc ++ " => " ++ remote)))
      else
        mBind (execM ("pnpm up " ++ name ++ "@" ++ remote)) (fun r =>
          match r.error with
          | some e => mPure (UpdateResult.failed (UpdateData.err (Thrown.js e)))
          | none =>
            mBind (getPkgVersion name) (fun updatedVersion =>
              if updatedVersion ≠ some remote then
                mPure (UpdateResult.failed (UpdateData.str
                  ("[" ++ name ++ "][更新失败] 请尝试手动更新 pnpm up " ++ name ++ "@" ++ remote)))
              else
                mPure (UpdateResult.ok
                  ("[" ++ name ++ "][更新成功] " ++ fmtOpt loc ++ " => " ++ remote)
                  loc remote)))))

/-- Source `updatePkg(name, tag)`: no-op (`local === remote`) reported as `failed`
without running the upgrade; runner errors reported as `failed`; post-update
re-resolution must equal the previously fetched remote for `ok`. -/
def updatePkg (name tag : String) : M UpdateResult :=
  tryCatchM (updatePkgTry name tag) (fun e => mPure (UpdateResult.failed (UpdateData.err e)))

/-- Entry of `updateAllPkg`'s `state` record: the planned update's resolved
local and remote values (both `string | undefined` at runtime). -/
structure PkgState where
  loc : Option String
  rem : Option String
deriving DecidableEq, Repr

/-- JS `record[key] = value` on an object modelled as an insertion-ordered
association list: an existing key keeps its position, a new key is appended
(`Object.keys` enumeration order for string keys). -/
def jsRecordSet (l : List (String × PkgState)) (k : String) (v : PkgState) :
    List (String × PkgState) :=
  match l with
  | [] => [(k, v)]
  | (k0, v0) :: rest =>
    if k0 = k then (k0, v) :: rest else (k0, v0) :: jsRecordSet rest k v

/-- Shared mutable accumulators of `updateAllPkg`'s probe phase (`tips`,
`cmd`, `state`), plus the first rejection recorded by the serialized
`Promise.all` model. -/
structure ProbeAcc where
  tips : List String
  cmd : List String
  state : List (String × PkgState)
  firstErr : Option Thrown
deriving DecidableEq, Repr

/-- Model of `await getRemotePkgVersion(name) || pkg.dependencies[name]`: the fallback
indexes `pkg.dependencies` without optional chaining, so a manifest without a
`dependencies` map raises a `TypeError` here. -/
def probeRemote (pkg : Package) (name remoteStr : String) : Except Thrown (Option String) :=
  if remoteStr ≠ "" then Except.ok (some remoteStr)
  else match pkg.dependencies with
    | none => Except.error (Thrown.js (jsNewError
        ("Cannot read properties of undefined (reading '" ++ name ++ "')")))
    | some deps => Except.ok (lookupAssoc deps name)

/-- One `Promise.all` closure of `updateAllPkg`, serialized: strip the `npm:`
tag, resolve local and remote, and either record a no-update tip or push the
batch-command fragment and the planned-update state.  The closure body has no
try/catch of its own; the surrounding handler models `Promise.all`, which lets
every closure run while remembering the first rejection for the aggregate. -/
def probeOne (pkg : Package) (raw : String) (acc : ProbeAcc) : M ProbeAcc :=
  tryCatchM
    (mBind (getPkgVersion (jsReplaceOnce raw "npm:")) (fun loc =>
      mBind (getRemotePkgVersion (jsReplaceOnce raw "npm:") "latest") (fun remoteStr =>
        match probeRemote pkg (jsReplaceOnce raw "npm:") remoteStr with
        | Except.error e => mThrow e
        | Except.ok rem =>
          if loc = rem then
            mPure { acc with tips := acc.tips ++
              ["[" ++ jsReplaceOnce raw "npm:" ++ "][无更新] " ++ fmtOpt loc ++ " => " ++ fmtOpt rem] }
          else
            mPure { acc with
              tips := acc.tips ++
                ["更新" ++ jsReplaceOnce raw "npm:" ++ " " ++ fmtOpt loc ++ " => " ++ fmtOpt rem],
              cmd := acc.cmd ++ [jsReplaceOnce raw "npm:" ++ "@" ++ fmtOpt rem],
              state := jsRecordSet acc.state (jsReplaceOnce raw "npm:") ⟨loc, rem⟩ })))
    (fun e => mPure (if acc.firstErr.isSome then acc else { acc with firstErr := some e }))

/-- The serialized `Promise.all(list.map(...))` phase of `updateAllPkg`. -/
def probePhase (pkg : Package) : List String → ProbeAcc → M ProbeAcc
  | [], acc => mPure acc
  | raw :: rest, acc => mBind (probeOne pkg raw acc) (fun acc2 => probePhase pkg rest acc2)

/-- Initial accumulators of `updateAllPkg` (`tips` and `cmd` as declared). -/
def initProbeAcc : ProbeAcc :=
  { tips := ["\n------- 更新npm插件 --------"], cmd := ["pnpm up"], state := [], firstErr := none }

/-- The manual-retry failure line of the batch report. -/
def mkFailLine (n : String) (st : PkgState) : String :=
  "[" ++ n ++ "][更新失败] 请尝试手动更新 pnpm up " ++ n ++ "@" ++ fmtOpt st.rem

/-- Post-batch per-entry verdict: compare the re-read manifest's declared
version (dependency maps probed with optional chaining and `||`) against the
planned remote. -/
def mkResultLine (updatedPkg : Package) (p : String × PkgState) : String :=
  let uv := jsOrOpt (optLookup updatedPkg.dependencies p.1)
    (jsOrOpt (optLookup updatedPkg.devDependencies p.1)
      (optLookup updatedPkg.peerDependencies p.1))
  if uv ≠ p.2.rem then mkFailLine p.1 p.2
  else "[" ++ p.1 ++ "][更新成功] " ++ fmtOpt p.2.loc ++ " => " ++ fmtOpt p.2.rem

/-- The comparator passed to `result.sort` at the end of `updateAllPkg`.  It
ignores its second argument, so it is not a consistent comparison function in
the ECMAScript sense: `Array.prototype.sort`'s resulting order is then
implementation-defined (only a permutation is guaranteed). -/
def resultComparator (a : String) (_b : String) : Int :=
  if strHasSub a "成功" then -1 else 1

/-- The shared `catch` body of both batch entry points:
`(error as Error).message || '更新失败，请查看日志'`; reading `.message` off a
thrown `null` itself raises a `TypeError`. -/
def jsCatchMessage (e : Thrown) : M String :=
  match e with
  | Thrown.js er => mPure (if er.message = "" then "更新失败，请查看日志" else er.message)
  | Thrown.null => mThrow (Thrown.js (jsNewError "Cannot read properties of null (reading 'message')"))

/-- The `try` block of `updateAllPkg`, parameterized by the JS engine's sort
routine (the comparator is inconsistent, so ECMAScript leaves the order
implementation-defined; theorems about the sorted report quantify over
permutation-producing engines). -/
def updateAllPkgTry (eSort : (String → String → Int) → List String → List String) : M String :=
  mBind getNpmPluginsM (fun npmList =>
    mBind (getPkg false) (fun pkg =>
      mBind (probePhase pkg (npmList ++ ["node-karin"]) initProbeAcc) (fun acc =>
        mBind (match acc.firstErr with
               | some e => mThrow e
               | none => mPure ()) (fun _ =>
          if acc.cmd.length = 1 then
            mPure "没有可更新的插件~"
          else
            mBind (execM (joinWith " " acc.cmd)) (fun r =>
              match r.error with
              | some _ =>
                mPure (joinWith "\n"
                  (("[更新失败] 更新数量: " ++ toString (acc.state.map (fun p => mkFailLine p.1 p.2)).length)
                    :: acc.state.map (fun p => mkFailLine p.1 p.2)))
              | none =>
                mBind (getPkg true) (fun updatedPkg =>
                  mPure (joinWith "\n"
                    (eSort resultComparator (acc.state.map (mkResultLine updatedPkg))))))))))

/-- Source `updateAllPkg()`: list npm plugins plus `node-karin`, probe all in
parallel, either report the no-update sentinel, or run one batch `pnpm up`,
re-read the manifest, build per-entry verdict lines and sort them with the
inconsistent comparator; any escaped throw is converted to a message string. -/
def updateAllPkg (eSort : (String → String → Int) → List String → List String) : M String :=
  tryCatchM (updateAllPkgTry eSort) jsCatchMessage

/-- The default-form log command of `getCommit` (source line 306: no space
between `[%ad]` and `%s`). -/
def gitLogDefaultCmd (count : Nat) : String :=
  "git log -" ++ toString count ++ " --format=\"[%ad]%s %n\" --date=\"format:%m-%d %H:%M\""

/-- The hash-range form of the log command (source line 308). -/
def gitLogHashCmd (hash : String) : String :=
  "git log " ++ hash ++ "..HEAD --format=\"[%ad] %s %n\" --date=\"format:%m-%d %H:%M\""

/-- The branch form of the log command (source line 310). -/
def gitLogBranchCmd (count : Nat) (branch : String) : String :=
  "git log -" ++ toString count ++ " " ++ branch ++ " --format=\"[%ad] %s %n\" --date=\"format:%m-%d %H:%M\""

/-- Source `getCommit`: the command variable is assigned
the default form, then reassigned to the hash form `if (hash)`, then
reassigned to the branch form `if (branch)` — sequential reassignment, so a
truthy `branch` always determines the executed command.  Runner errors are
thrown; otherwise raw stdout is returned. -/
def getCommit (_path : String) (count : Nat) (hash branch : Option String) : M String :=
  mBind (execM
    (if optTruthy branch then gitLogBranchCmd count (fmtOpt branch)
     else if optTruthy hash then gitLogHashCmd (fmtOpt hash)
     else gitLogDefaultCmd count)) (fun r =>
    match r.error with
    | some e => mThrow (Thrown.js e)
    | none => mPure r.stdout)

/-- Source `getHash(filePath, short)`: `git rev-parse [--short] HEAD`; runner errors
are thrown, raw (untrimmed) stdout is returned. -/
def getHash (_filePath : String) (short : Bool) : M String :=
  mBind (execM (if short then "git rev-parse --short HEAD" else "git rev-parse HEAD")) (fun r =>
    match r.error with
    | some e => mThrow (Thrown.js e)
    | none => mPure r.stdout)

/-- Source `getTime(filePath)`: last-commit timestamp; a runner error yields a
human-readable failure string instead of throwing. -/
def getTime (_filePath : String) : M String :=
  mBind (execM "git log -1 --format=%cd --date=format:\"%Y-%m-%d %H:%M:%S\"") (fun r =>
    match r.error with
    | some _ => mPure "获取最后一次提交时间失败，请重试或更新Git~"
    | none => mPure r.stdout)

/-- Result union of `checkGitPluginUpdate` (its body never produces the
`failed` literal that only appears inside the dead timeout callback). -/
inductive GitCheckResult where
  | yes (data : String) (count : Nat)
  | no (data : String)
  | error (data : Thrown)
deriving DecidableEq, Repr

/-- The `try` block of `checkGitPluginUpdate`.  The `setTimeout` timer of the
source constructs a result inside its callback but that value reaches no
caller and the timer interrupts nothing, so it has no effect on control flow
and is not modelled. -/
def checkGitPluginUpdateTry (filePath : String) (_time : Nat) : M GitCheckResult :=
  mBind (fsExistsM filePath) (fun ex1 =>
    if !ex1 then mPure (GitCheckResult.error (Thrown.js (jsNewError "路径不存在")))
    else mBind (fsExistsM (filePath ++ "/.git")) (fun ex2 =>
      if !ex2 then mPure (GitCheckResult.error (Thrown.js (jsNewError "该路径不是一个git仓库")))
      else mBind (execM "git fetch origin") (fun r1 =>
        match r1.error with
        | some e => mPure (GitCheckResult.error (Thrown.js e))
        | none => mBind (execM "git status -uno") (fun r2 =>
          if strHasSub r2.stdout "Your branch is up to date with" then
            mBind (getTime filePath) (fun t =>
              mPure (GitCheckResult.no ("当前版本已是最新版本\n最后更新时间：" ++ t)))
          else
            mBind (getCommit filePath (behindCount r2.stdout) none (some "origin")) (fun data =>
              mPure (GitCheckResult.yes data (behindCount r2.stdout)))))))

/-- Source `checkGitPluginUpdate(filePath, time)`: precondition checks yield
`status: error` with `Error('路径不存在')` / `Error('该路径不是一个git仓库')`;
fetch, parse `git status -uno`, and report drift; all throws are caught. -/
def checkGitPluginUpdate (filePath : String) (time : Nat) : M GitCheckResult :=
  tryCatchM (checkGitPluginUpdateTry filePath time) (fun e => mPure (GitCheckResult.error e))

/-- Failure payload of `updateGitPlugin`: a message string or the caught value. -/
inductive GitFailData where
  | str (s : String)
  | err (e : Thrown)
deriving DecidableEq, Repr

/-- Result union actually produced by `updateGitPlugin`'s body (the declared
`error` variant is never constructed). -/
inductive GitUpdateResult where
  | failed (data : GitFailData)
  | ok (data : String) (commit : String)
deriving DecidableEq, Repr

/-- Model of `error?.stack || error?.message` interpolated into the diagnostic. -/
def errStackOrMessage (e : JsError) : String :=
  fmtOpt (jsOrOpt e.stack (some e.message))

/-- The `try` block of `updateGitPlugin`.  The non-enforcing timeout timer is
elided as in the inspector.  In the hash-changed branch the source awaits one
commit log for the `commit` field and then interpolates a second, unawaited
`getCommit` promise into the success message, which prints as
`[object Promise]`; that second call still issues its command, so it is run
here with its result (and any rejection) discarded. -/
def updateGitPluginTry (filePath cmd0 : String) (time : Nat) : M GitUpdateResult :=
  mBind (fsExistsM filePath) (fun ex1 =>
    if !ex1 then mPure (GitUpdateResult.failed (GitFailData.str "路径不存在"))
    else mBind (fsExistsM (filePath ++ "/.git")) (fun ex2 =>
      if !ex2 then mPure (GitUpdateResult.failed (GitFailData.str "该路径不是一个git仓库"))
      else mBind (getHash filePath true) (fun hash =>
        mBind (execM (if cmd0 = "" then "git pull" else cmd0)) (fun r =>
          match r.error with
          | some e => mPure (GitUpdateResult.failed (GitFailData.str
              ("\n更新失败\n错误信息：" ++ errStackOrMessage e ++ "\n请解决错误后重试或执行【#强制更新】")))
          | none => mBind (getHash filePath true) (fun updatedHash =>
            if hash = updatedHash then
              mBind (getCommit filePath 1 none none) (fun commit =>
                mPure (GitUpdateResult.failed (GitFailData.str
                  ("\n当前版本已是最新版本\n最后更新时间：" ++ toString time ++ "\n更新详情：" ++ commit))))
            else
              mBind (getCommit filePath 1 none none) (fun commit =>
                mBind (tryCatchM (mBind (getCommit filePath 1 none none) (fun c2 => mPure (some c2)))
                    (fun _ => mPure none)) (fun _ =>
                  mPure (GitUpdateResult.ok "\n更新成功\n更新日志：[object Promise]" commit))))))))

/-- Source `updateGitPlugin(filePath, cmd, time)`: precondition checks report
`failed` (not `error`); the pre/post HEAD short hashes decide no-op versus
success; any throw is caught into `failed`. -/
def updateGitPlugin (filePath cmd0 : String) (time : Nat) : M GitUpdateResult :=
  tryCatchM (updateGitPluginTry filePath cmd0 time)
    (fun e => mPure (GitUpdateResult.failed (GitFailData.err e)))

/-- The per-plugin outcome line of `updateAllGitPlugin` (the same string is
pushed to both `tips` and `result`; a failed payload interpolates strings
verbatim and `Error` objects via their JS string conversion). -/
def fmtGitFail : GitFailData → String
  | GitFailData.str s => s
  | GitFailData.err (Thrown.js e) => "Error: " ++ e.message
  | GitFailData.err Thrown.null => "null"

/-- Outcome line for one plugin, marked by that plugin's own result. -/
def lineOfOutcome (name : String) : GitUpdateResult → String
  | GitUpdateResult.ok data _ => "[" ++ name ++ "][更新成功] " ++ data
  | GitUpdateResult.failed d => "[" ++ name ++ "][更新失败] " ++ fmtGitFail d

/-- One `Promise.allSettled` closure of `updateAllGitPlugin`: strip the
`git:` tag, update that plugin, and format its outcome line (the same string
the source pushes to both `tips` and `result` after the `await` completes). -/
def gitSettleOne (cmd : String) (time : Nat) (raw : String) : M String :=
  mBind (updateGitPlugin ("./plugins/" ++ jsReplaceOnce raw "git:") cmd time) (fun r =>
    mPure (lineOfOutcome (jsReplaceOnce raw "git:") r))

/-- The `Promise.allSettled` phase of `updateAllGitPlugin`, parameterized by a
completion schedule.  Each closure pushes its `result` line only after its own
`await updateGitPlugin(...)` completes, so the lines land in the completion
order of the concurrent git operations — an order driven by external process
timing that neither the code nor ECMAScript constrains.  The schedule lists
the indices into the plugin listing in the order in which those closures
complete (an index out of range selects no closure); each scheduled closure
runs atomically at its completion slot.  A rejected closure (impossible here,
since `updateGitPlugin` catches everything) would contribute no line, and
never aborts the remaining plugins. -/
def gitSettleSched (cmd : String) (time : Nat) (list : List String) :
    List Nat → List String → M (List String)
  | [], acc => mPure acc
  | i :: rest, acc =>
    match list.get? i with
    | none => gitSettleSched cmd time list rest acc
    | some raw =>
      mBind (tryCatchM (mBind (gitSettleOne cmd time raw) (fun l => mPure (some l)))
          (fun _ => mPure none)) (fun o =>
        gitSettleSched cmd time list rest
          (match o with
           | some l => acc ++ [l]
           | none => acc))

/-- The `try` block of `updateAllGitPlugin`, parameterized by the completion
schedule of the settled closures. -/
def updateAllGitPluginTry (sched : List Nat) (cmd : String) (time : Nat) : M String :=
  mBind getGitPluginsM (fun list =>
    if list.length = 0 then mPure "没有可更新的插件~"
    else
      mBind (gitSettleSched cmd time list sched []) (fun result =>
        mPure (joinWith "\n" result)))

/-- Source `updateAllGitPlugin(cmd, time)`: list git plugins (sentinel when
none), settle every per-plugin update with failure isolation, and join the
outcome lines in the completion order given by the schedule; theorems about
the report quantify over schedules that enumerate every listing index exactly
once. -/
def updateAllGitPlugin (sched : List Nat) (cmd : String) (time : Nat) : M String :=
  tryCatchM (updateAllGitPluginTry sched cmd time) jsCatchMessage

/-- Specification-level report builder for the git batch, written from the
spec's words for the refinement claim but ordered by the completion schedule:
one outcome line per scheduled plugin, each line marked success or failure by
that plugin's own `updateGitPlugin` outcome at the world reached when its
completion slot comes; a closure whose promise rejected (never happens)
contributes no line. -/
def gitReportLinesSched (cmd : String) (time : Nat) (list : List String) :
    List Nat → World → List String × World
  | [], w => ([], w)
  | i :: rest, w =>
    match list.get? i with
    | none => gitReportLinesSched cmd time list rest w
    | some raw =>
      match updateGitPlugin ("./plugins/" ++ jsReplaceOnce raw "git:") cmd time w with
      | (Except.ok r, w1) =>
        let p := gitReportLinesSched cmd time list rest w1
        (lineOfOutcome (jsReplaceOnce raw "git:") r :: p.1, p.2)
      | (Except.error _, w1) =>
        gitReportLinesSched cmd time list rest w1

/-- An empty manifest object. -/
def pkgEmpty : Package := ⟨none, none, none⟩

/-- Oracle trace for the single-package update scenario: local `1.0.0`, remote
`1.0.1`, successful upgrade, re-resolved local `1.0.1`. -/
def respC1 : Nat → ExecResult := fun n =>
  match n with
  | 0 => ⟨true, "foo@1.0.0\n", none⟩
  | 1 => ⟨true, "1.0.1\n", none⟩
  | 2 => ⟨true, "", none⟩
  | _ => ⟨true, "foo@1.0.1\n", none⟩

/-- Concrete world for the single-package update scenario. -/
def wC1 : World :=
  { responses := respC1, execCount := 0, calls := [], fsMap := fun _ => false,
    pkgs := fun _ => pkgEmpty, pkgCount := 0, npmPlugins := [], gitPlugins := [] }

/-- C1: for every package name and tag, when the resolved local version equals
the resolved remote version (`local === remote`, i.e. the local
`string | undefined` value is exactly the remote string), `updatePkg` returns
`status: failed` with the no-update message and the final world is the one
reached after the two resolutions — no further runner call, so the upgrade
command is never executed; when they differ and the upgrade command reports no
runner error, and the re-resolution succeeds with value `u`, the result is
`status: ok` exactly when `u` equals the previously fetched remote, and
otherwise `status: failed` carrying the manual-update hint. -/
theorem updatePkg_spec (name tag : String) (w w1 w2 : World) (l : Option String) (r : String)
    (h1 : getPkgVersion name w = (Except.ok l, w1))
    (h2 : getRemotePkgVersion name tag w1 = (Except.ok r, w2)) :
    (l = some r →
      updatePkg name tag w =
        (Except.ok (UpdateResult.failed (UpdateData.str
          ("[" ++ name ++ "][无更新] " ++ fmtOpt l ++ " => " ++ r))), w2)) ∧
    (l ≠ some r →
      (w2.responses w2.execCount).error = none →
      ∀ u w4, getPkgVersion name (execStep w2 ("pnpm up " ++ name ++ "@" ++ r)) = (Except.ok u, w4) →
        updatePkg name tag w =
          (Except.ok (if u = some r then
              UpdateResult.ok ("[" ++ name ++ "][更新成功] " ++ fmtOpt l ++ " => " ++ r) l r
            else
              UpdateResult.failed (UpdateData.str
                ("[" ++ name ++ "][更新失败] 请尝试手动更新 pnpm up " ++ name ++ "@" ++ r))), w4)) := by
  constructor
  · intro hl
    have hbody : updatePkgTry name tag w =
        (Except.ok (UpdateResult.failed (UpdateData.str
          ("[" ++ name ++ "][无更新] " ++ fmtOpt l ++ " => " ++ r))), w2) := by
      simp only [updatePkgTry, mBind_ok h1, mBind_ok h2, hl, if_pos]
      rfl
    exact tryCatchM_ok hbody _
  · intro hne hresp u w4 h3
    have hbody : updatePkgTry name tag w =
        (Except.ok (if u = some r then
            UpdateResult.ok ("[" ++ name ++ "][更新成功] " ++ fmtOpt l ++ " => " ++ r) l r
          else
            UpdateResult.failed (UpdateData.str
              ("[" ++ name ++ "][更新失败] 请尝试手动更新 pnpm up " ++ name ++ "@" ++ r))), w4) := by
      simp only [updatePkgTry, mBind_ok h1, mBind_ok h2, if_neg hne,
        mBind_ok (execM_apply ("pnpm up " ++ name ++ "@" ++ r) w2), hresp, mBind_ok h3]
      by_cases hu : u = some r
      · simp [hu, mPure]
      · simp [hu, mPure]
    exact tryCatchM_ok hbody _

/-- C1 witness: in the concrete world `wC1` the two resolutions give `1.0.0`
and `1.0.1`, the upgrade command reports no error, re-resolution gives
`1.0.1`, and `updatePkg` returns `status: ok`. -/
theorem updatePkg_spec_witness :
    (updatePkg "foo" "latest" wC1).1 =
      Except.ok (UpdateResult.ok "[foo][更新成功] 1.0.0 => 1.0.1" (some "1.0.0") "1.0.1") := by
  have h := (updatePkg_spec "foo" "latest" wC1
      (execStep wC1 (npmListCmd "foo"))
      (execStep (execStep wC1 (npmListCmd "foo")) (npmShowCmd "foo" "latest"))
      (some "1.0.0") "1.0.1" rfl rfl).2 (by decide) rfl (some "1.0.1")
      (execStep (execStep (execStep (execStep wC1 (npmListCmd "foo")) (npmShowCmd "foo" "latest"))
        "pnpm up foo@1.0.1") (npmListCmd "foo")) rfl
  rw [h]
  rfl

/-- C2: `checkPkgUpdate` never propagates an exception (for every name and
world it produces a result value); when both resolutions succeed it returns
`status: no` exactly when the local value equals the remote string under `===`
(the `string | undefined` local must be exactly the remote string) and
`status: yes` when they differ; when either resolution throws, the thrown
value is returned as `status: error`. -/
theorem checkPkgUpdate_spec (name : String) (w : World) :
    (∃ res w1, checkPkgUpdate name w = (Except.ok res, w1)) ∧
    (∀ l w1 r w2, getPkgVersion name w = (Except.ok l, w1) →
      getRemotePkgVersion name "latest" w1 = (Except.ok r, w2) →
      checkPkgUpdate name w =
        (Except.ok (if l = some r then CheckPkgResult.no l else CheckPkgResult.yes l r), w2)) ∧
    (∀ e w1, getPkgVersion name w = (Except.error e, w1) →
      checkPkgUpdate name w = (Except.ok (CheckPkgResult.error e), w1)) ∧
    (∀ l w1 e w2, getPkgVersion name w = (Except.ok l, w1) →
      getRemotePkgVersion name "latest" w1 = (Except.error e, w2) →
      checkPkgUpdate name w = (Except.ok (CheckPkgResult.error e), w2)) := by
  refine ⟨?_, ?_, ?_, ?_⟩
  · rcases hInner : checkPkgUpdateTry name w with ⟨e | res, w1⟩
    · refine ⟨CheckPkgResult.error e, w1, ?_⟩
      show tryCatchM (checkPkgUpdateTry name) (fun e => mPure (CheckPkgResult.error e)) w = _
      rw [tryCatchM_err hInner]
      rfl
    · exact ⟨res, w1, tryCatchM_ok hInner _⟩
  · intro l w1 r w2 h1 h2
    have hbody : checkPkgUpdateTry name w =
        (Except.ok (if l = some r then CheckPkgResult.no l else CheckPkgResult.yes l r), w2) := by
      simp only [checkPkgUpdateTry, mBind_ok h1, mBind_ok h2]
      by_cases hl : l = some r
      · simp [hl, mPure]
      · simp [hl, mPure]
    exact tryCatchM_ok hbody _
  · intro e w1 h1
    have hbody : checkPkgUpdateTry name w = (Except.error e, w1) := by
      simp only [checkPkgUpdateTry, mBind_err h1]
    show tryCatchM (checkPkgUpdateTry name) (fun e => mPure (CheckPkgResult.error e)) w = _
    rw [tryCatchM_err hbody]
    rfl
  · intro l w1 e w2 h1 h2
    have hbody : checkPkgUpdateTry name w = (Except.error e, w2) := by
      simp only [checkPkgUpdateTry, mBind_ok h1, mBind_err h2]
    show tryCatchM (checkPkgUpdateTry name) (fun e => mPure (CheckPkgResult.error e)) w = _
    rw [tryCatchM_err hbody]
    rfl

/-- Oracle trace showing the non-semver-aware comparison: local `1.0.0`,
remote `v1.0.0` (a tag-style string a semver-aware check would equate). -/
def respC2 : Nat → ExecResult := fun n =>
  match n with
  | 0 => ⟨true, "foo@1.0.0\n", none⟩
  | _ => ⟨true, "v1.0.0\n", none⟩

/-- Concrete world for the checkPkgUpdate scenario. -/
def wC2 : World :=
  { responses := respC2, execCount := 0, calls := [], fsMap := fun _ => false,
    pkgs := fun _ => pkgEmpty, pkgCount := 0, npmPlugins := [], gitPlugins := [] }

/-- C2 witness: local `1.0.0` and remote `v1.0.0` differ as strings, so the
result is `status: yes` — string comparison, not semver comparison. -/
theorem checkPkgUpdate_spec_witness :
    (checkPkgUpdate "foo" wC2).1 = Except.ok (CheckPkgResult.yes (some "1.0.0") "v1.0.0") := by
  have h := (checkPkgUpdate_spec "foo" wC2).2.1 (some "1.0.0")
      (execStep wC2 (npmListCmd "foo")) "v1.0.0"
      (execStep (execStep wC2 (npmListCmd "foo")) (npmShowCmd "foo" "latest")) rfl rfl
  rw [h]
  rfl

/-- C7: for a non-existent path `checkGitPluginUpdate` returns
`status: error` with `Error('路径不存在')` while `updateGitPlugin` returns
`status: failed` with the same message; for an existing path without a `.git`
directory the statuses are `error` with `Error('该路径不是一个git仓库')` and
`failed` with that message.  In both cases no runner command is issued (the
world is unchanged). -/
theorem gitPrecondition_spec (path cmd : String) (time : Nat) (w : World) :
    (w.fsMap path = false →
      checkGitPluginUpdate path time w =
        (Except.ok (GitCheckResult.error (Thrown.js (jsNewError "路径不存在"))), w) ∧
      updateGitPlugin path cmd time w =
        (Except.ok (GitUpdateResult.failed (GitFailData.str "路径不存在")), w)) ∧
    (w.fsMap path = true → w.fsMap (path ++ "/.git") = false →
      checkGitPluginUpdate path time w =
        (Except.ok (GitCheckResult.error (Thrown.js (jsNewError "该路径不是一个git仓库"))), w) ∧
      updateGitPlugin path cmd time w =
        (Except.ok (GitUpdateResult.failed (GitFailData.str "该路径不是一个git仓库")), w)) := by
  constructor
  · intro h1
    constructor
    · have hbody : checkGitPluginUpdateTry path time w =
          (Except.ok (GitCheckResult.error (Thrown.js (jsNewError "路径不存在"))), w) := by
        simp [checkGitPluginUpdateTry, fsExistsM, mBind, mPure, h1]
      exact tryCatchM_ok hbody _
    · have hbody : updateGitPluginTry path cmd time w =
          (Except.ok (GitUpdateResult.failed (GitFailData.str "路径不存在")), w) := by
        simp [updateGitPluginTry, fsExistsM, mBind, mPure, h1]
      exact tryCatchM_ok hbody _
  · intro h1 h2
    constructor
    · have hbody : checkGitPluginUpdateTry path time w =
          (Except.ok (GitCheckResult.error (Thrown.js (jsNewError "该路径不是一个git仓库"))), w) := by
        simp [checkGitPluginUpdateTry, fsExistsM, mBind, mPure, h1, h2]
      exact tryCatchM_ok hbody _
    · have hbody : updateGitPluginTry path cmd time w =
          (Except.ok (GitUpdateResult.failed (GitFailData.str "该路径不是一个git仓库")), w) := by
        simp [updateGitPluginTry, fsExistsM, mBind, mPure, h1, h2]
      exact tryCatchM_ok hbody _

/-- Concrete world for the precondition scenarios: `/a` does not exist, `/b`
exists but has no `.git` directory. -/
def wC7 : World :=
  { responses := fun _ => ⟨true, "", none⟩, execCount := 0, calls := [],
    fsMap := fun p => p = "/b", pkgs := fun _ => pkgEmpty, pkgCount := 0,
    npmPlugins := [], gitPlugins := [] }

/-- C7 witness: both precondition failures observed on concrete paths for both
the inspector (`error`) and the updater (`failed`). -/
theorem gitPrecondition_spec_witness :
    (checkGitPluginUpdate "/a" 120 wC7).1 =
      Except.ok (GitCheckResult.error (Thrown.js (jsNewError "路径不存在"))) ∧
    (updateGitPlugin "/a" "git pull" 120 wC7).1 =
      Except.ok (GitUpdateResult.failed (GitFailData.str "路径不存在")) ∧
    (checkGitPluginUpdate "/b" 120 wC7).1 =
      Except.ok (GitCheckResult.error (Thrown.js (jsNewError "该路径不是一个git仓库"))) ∧
    (updateGitPlugin "/b" "git pull" 120 wC7).1 =
      Except.ok (GitUpdateResult.failed (GitFailData.str "该路径不是一个git仓库")) := by
  have ha := (gitPrecondition_spec "/a" "git pull" 120 wC7).1 (by decide)
  have hb := (gitPrecondition_spec "/b" "git pull" 120 wC7).2 (by decide) (by decide)
  exact ⟨by rw [ha.1], by rw [ha.2], by rw [hb.1], by rw [hb.2]⟩

/-- Concrete world for the `getCommit` selection-mode scenario. -/
def wC8 : World :=
  { responses := fun _ => ⟨true, "[10-02 12:00] msg \n", none⟩, execCount := 0, calls := [],
    fsMap := fun _ => true, pkgs := fun _ => pkgEmpty, pkgCount := 0,
    npmPlugins := [], gitPlugins := [] }

/-- C8 counterexample: with both a hash (`abc`) and a branch (`dev`) supplied,
the executed log command is the branch form, not the hash-to-HEAD range form
claimed to take precedence. -/
theorem getCommit_precedence_counterexample :
    (getCommit "/p" 1 (some "abc") (some "dev") wC8).2.calls = [gitLogBranchCmd 1 "dev"] ∧
    gitLogBranchCmd 1 "dev" ≠ gitLogHashCmd "abc" := by
  constructor
  · rfl
  · decide

/-- C8 amended: the command variable is assigned in sequence (`hash` branch
first, `branch` branch second), so the later `branch` assignment wins — for
every truthy hash and truthy branch the executed log command is the
branch-form `git log -<count> <branch> ...` query, and the hash-range form is
never issued in that call. -/
theorem getCommit_branch_precedence (path h b : String) (count : Nat) (w : World)
    (hh : h ≠ "") (hb : b ≠ "") :
    (getCommit path count (some h) (some b) w).2.calls = w.calls ++ [gitLogBranchCmd count b] ∧
    (getCommit path count (some h) (some b) w).2.execCount = w.execCount + 1 := by
  have hcmd : (if optTruthy (some b) then gitLogBranchCmd count (fmtOpt (some b))
      else if optTruthy (some h) then gitLogHashCmd (fmtOpt (some h))
      else gitLogDefaultCmd count) = gitLogBranchCmd count b := by
    simp [optTruthy, hb, fmtOpt]
  have : getCommit path count (some h) (some b) w =
      (mBind (execM (gitLogBranchCmd count b)) (fun r =>
        match r.error with
        | some e => mThrow (Thrown.js e)
        | none => mPure r.stdout)) w := by
    rw [getCommit, hcmd]
  rw [this, mBind_ok (execM_apply _ w)]
  rcases hre : (w.responses w.execCount).error with _ | e
  · simp [hre, mPure, execStep]
  · simp [hre, mThrow, execStep]

/-- C8 amended witness: at a concrete call with hash `abc` and branch `dev`
the issued command is the branch form. -/
theorem getCommit_branch_precedence_witness :
    ("abc" : String) ≠ "" ∧ ("dev" : String) ≠ "" ∧
    (getCommit "/p" 1 (some "abc") (some "dev") wC8).2.calls = [gitLogBranchCmd 1 "dev"] := by
  refine ⟨by decide, by decide, ?_⟩
  have h := (getCommit_branch_precedence "/p" "abc" "dev" 1 wC8 (by decide) (by decide)).1
  simpa [wC8] using h

theorem fsExistsM_apply (p : String) (w : World) : fsExistsM p w = (Except.ok (w.fsMap p), w) := rfl

theorem getHash_run (fp : String) (w : World) (hr : (w.responses w.execCount).error = none) :
    getHash fp true w =
      (Except.ok (w.responses w.execCount).stdout, execStep w "git rev-parse --short HEAD") := by
  simp only [getHash, if_pos]
  rw [mBind_ok (execM_apply _ w)]
  simp [hr, mPure]

theorem getHash_err (fp : String) (w : World) (e : JsError)
    (hr : (w.responses w.execCount).error = some e) :
    getHash fp true w =
      (Except.error (Thrown.js e), execStep w "git rev-parse --short HEAD") := by
  simp only [getHash, if_pos]
  rw [mBind_ok (execM_apply _ w)]
  simp [hr, mThrow]

theorem getCommitDefault_run (fp : String) (count : Nat) (w : World)
    (hr : (w.responses w.execCount).error = none) :
    getCommit fp count none none w =
      (Except.ok (w.responses w.execCount).stdout, execStep w (gitLogDefaultCmd count)) := by
  simp only [getCommit, optTruthy]
  rw [mBind_ok (execM_apply _ w)]
  simp [hr, mPure]

theorem getCommitDefault_err (fp : String) (count : Nat) (w : World) (e : JsError)
    (hr : (w.responses w.execCount).error = some e) :
    getCommit fp count none none w =
      (Except.error (Thrown.js e), execStep w (gitLogDefaultCmd count)) := by
  simp only [getCommit, optTruthy]
  rw [mBind_ok (execM_apply _ w)]
  simp [hr, mThrow]

/-- Behaviour of `updateGitPlugin`'s try block after the precondition checks
pass and the first hash read succeeds: the continuation receives the update
command's runner response in the world where that command has executed. -/
theorem updateGitPluginTry_after (filePath cmd0 : String) (time : Nat) (w : World)
    (hex1 : w.fsMap filePath = true) (hex2 : w.fsMap (filePath ++ "/.git") = true)
    (hcmd : cmd0 ≠ "") (hr0 : (w.responses w.execCount).error = none) :
    updateGitPluginTry filePath cmd0 time w =
      (match ((execStep w "git rev-parse --short HEAD").responses
          (execStep w "git rev-parse --short HEAD").execCount).error with
       | some e => mPure (GitUpdateResult.failed (GitFailData.str
           ("\n更新失败\n错误信息：" ++ errStackOrMessage e ++ "\n请解决错误后重试或执行【#强制更新】")))
       | none => mBind (getHash filePath true) (fun updatedHash =>
           if (w.responses w.execCount).stdout = updatedHash then
             mBind (getCommit filePath 1 none none) (fun commit =>
               mPure (GitUpdateResult.failed (GitFailData.str
                 ("\n当前版本已是最新版本\n最后更新时间：" ++ toString time ++ "\n更新详情：" ++ commit))))
           else
             mBind (getCommit filePath 1 none none) (fun commit =>
               mBind (tryCatchM (mBind (getCommit filePath 1 none none) (fun c2 => mPure (some c2)))
                   (fun _ => mPure none)) (fun _ =>
                 mPure (GitUpdateResult.ok "\n更新成功\n更新日志：[object Promise]" commit)))))
        (execStep (execStep w "git rev-parse --short HEAD") cmd0) := by
  have hfs1 : fsExistsM filePath w = (Except.ok true, w) := by rw [fsExistsM_apply, hex1]
  have hfs2 : fsExistsM (filePath ++ "/.git") w = (Except.ok true, w) := by rw [fsExistsM_apply, hex2]
  simp only [updateGitPluginTry, mBind_ok hfs1, mBind_ok hfs2, Bool.not_true, Bool.false_eq_true,
    if_false, mBind_ok (getHash_run filePath w hr0), if_neg hcmd,
    mBind_ok (execM_apply cmd0 (execStep w "git rev-parse --short HEAD"))]

/-- C3 amended: for an existing git-repository path (and a non-empty update
command), with the pre-update hash read succeeding: a runner error of the
update command yields `failed`; a runner error of the post-update hash read
yields `failed`; equal pre/post hashes yield `failed` (never `ok`), whatever
the final log retrieval does; differing hashes yield `ok` when the log
retrieval succeeds, but `failed` (not `ok`) when the log retrieval reports a
runner error — so `ok` implies the hashes differ, while differing hashes alone
do not guarantee `ok`. -/
theorem updateGitPlugin_hash_spec (filePath cmd0 : String) (time : Nat) (w w1 w2 w3 : World)
    (hex1 : w.fsMap filePath = true) (hex2 : w.fsMap (filePath ++ "/.git") = true)
    (hcmd : cmd0 ≠ "")
    (hr0 : (w.responses w.execCount).error = none)
    (hw1 : w1 = execStep w "git rev-parse --short HEAD")
    (hw2 : w2 = execStep w1 cmd0)
    (hw3 : w3 = execStep w2 "git rev-parse --short HEAD") :
    (∀ e, (w1.responses w1.execCount).error = some e →
      updateGitPlugin filePath cmd0 time w =
        (Except.ok (GitUpdateResult.failed (GitFailData.str
          ("\n更新失败\n错误信息：" ++ errStackOrMessage e ++ "\n请解决错误后重试或执行【#强制更新】"))), w2)) ∧
    ((w1.responses w1.execCount).error = none →
      ∀ e2, (w2.responses w2.execCount).error = some e2 →
      updateGitPlugin filePath cmd0 time w =
        (Except.ok (GitUpdateResult.failed (GitFailData.err (Thrown.js e2))), w3)) ∧
    ((w1.responses w1.execCount).error = none →
      (w2.responses w2.execCount).error = none →
      (w.responses w.execCount).stdout = (w2.responses w2.execCount).stdout →
      ∃ d, (updateGitPlugin filePath cmd0 time w).1 = Except.ok (GitUpdateResult.failed d)) ∧
    ((w1.responses w1.execCount).error = none →
      (w2.responses w2.execCount).error = none →
      (w.responses w.execCount).stdout ≠ (w2.responses w2.execCount).stdout →
      (w3.responses w3.execCount).error = none →
      updateGitPlugin filePath cmd0 time w =
        (Except.ok (GitUpdateResult.ok "\n更新成功\n更新日志：[object Promise]"
          (w3.responses w3.execCount).stdout),
         execStep (execStep w3 (gitLogDefaultCmd 1)) (gitLogDefaultCmd 1))) ∧
    ((w1.responses w1.execCount).error = none →
      (w2.responses w2.execCount).error = none →
      (w.responses w.execCount).stdout ≠ (w2.responses w2.execCount).stdout →
      ∀ e3, (w3.responses w3.execCount).error = some e3 →
      (updateGitPlugin filePath cmd0 time w).1 =
        Except.ok (GitUpdateResult.failed (GitFailData.err (Thrown.js e3)))) := by
  subst hw1; subst hw2; subst hw3
  have hafter := updateGitPluginTry_after filePath cmd0 time w hex1 hex2 hcmd hr0
  refine ⟨?_, ?_, ?_, ?_, ?_⟩
  · intro e he1
    have hTry : updateGitPluginTry filePath cmd0 time w =
        (Except.ok (GitUpdateResult.failed (GitFailData.str
          ("\n更新失败\n错误信息：" ++ errStackOrMessage e ++ "\n请解决错误后重试或执行【#强制更新】"))),
         execStep (execStep w "git rev-parse --short HEAD") cmd0) := by
      rw [hafter]; simp only [he1]; rfl
    exact tryCatchM_ok hTry _
  · intro h1 e2 he2
    have hTry : updateGitPluginTry filePath cmd0 time w =
        (Except.error (Thrown.js e2),
         execStep (execStep (execStep w "git rev-parse --short HEAD") cmd0) "git rev-parse --short HEAD") := by
      rw [hafter]; simp only [h1]
      rw [mBind_err (getHash_err filePath _ e2 he2)]
    show tryCatchM (updateGitPluginTry filePath cmd0 time)
      (fun e => mPure (GitUpdateResult.failed (GitFailData.err e))) w = _
    rw [tryCatchM_err hTry]
    rfl
  · intro h1 h2 heq
    rcases h3 : ((execStep (execStep (execStep w "git rev-parse --short HEAD") cmd0)
        "git rev-parse --short HEAD").responses
        (execStep (execStep (execStep w "git rev-parse --short HEAD") cmd0)
          "git rev-parse --short HEAD").execCount).error with _ | e3
    · refine ⟨GitFailData.str ("\n当前版本已是最新版本\n最后更新时间：" ++ toString time ++ "\n更新详情：" ++
        ((execStep (execStep (execStep w "git rev-parse --short HEAD") cmd0)
          "git rev-parse --short HEAD").responses
          (execStep (execStep (execStep w "git rev-parse --short HEAD") cmd0)
            "git rev-parse --short HEAD").execCount).stdout), ?_⟩
      have hTry : updateGitPluginTry filePath cmd0 time w =
          (Except.ok (GitUpdateResult.failed (GitFailData.str
            ("\n当前版本已是最新版本\n最后更新时间：" ++ toString time ++ "\n更新详情：" ++
              ((execStep (execStep (execStep w "git rev-parse --short HEAD") cmd0)
                "git rev-parse --short HEAD").responses
                (execStep (execStep (execStep w "git rev-parse --short HEAD") cmd0)
                  "git rev-parse --short HEAD").execCount).stdout))),
           execStep (execStep (execStep (execStep w "git rev-parse --short HEAD") cmd0)
             "git rev-parse --short HEAD") (gitLogDefaultCmd 1)) := by
        rw [hafter]; simp only [h1]
        rw [mBind_ok (getHash_run filePath _ h2), if_pos heq,
          mBind_ok (getCommitDefault_run filePath 1 _ h3)]
        rfl
      have hfull := tryCatchM_ok hTry
        (fun e => mPure (GitUpdateResult.failed (GitFailData.err e)))
      rw [show updateGitPlugin filePath cmd0 time w = _ from hfull]
    · refine ⟨GitFailData.err (Thrown.js e3), ?_⟩
      have hTry : updateGitPluginTry filePath cmd0 time w =
          (Except.error (Thrown.js e3),
           execStep (execStep (execStep (execStep w "git rev-parse --short HEAD") cmd0)
             "git rev-parse --short HEAD") (gitLogDefaultCmd 1)) := by
        rw [hafter]; simp only [h1]
        rw [mBind_ok (getHash_run filePath _ h2), if_pos heq,
          mBind_err (getCommitDefault_err filePath 1 _ e3 h3)]
      have : updateGitPlugin filePath cmd0 time w =
          (Except.ok (GitUpdateResult.failed (GitFailData.err (Thrown.js e3))),
           execStep (execStep (execStep (execStep w "git rev-parse --short HEAD") cmd0)
             "git rev-parse --short HEAD") (gitLogDefaultCmd 1)) := by
        show tryCatchM (updateGitPluginTry filePath cmd0 time)
          (fun e => mPure (GitUpdateResult.failed (GitFailData.err e))) w = _
        rw [tryCatchM_err hTry]
        rfl
      rw [this]
  · intro h1 h2 hne h3
    have hTry : updateGitPluginTry filePath cmd0 time w =
        (Except.ok (GitUpdateResult.ok "\n更新成功\n更新日志：[object Promise]"
          (((execStep (execStep (execStep w "git rev-parse --short HEAD") cmd0)
            "git rev-parse --short HEAD").responses
            (execStep (execStep (execStep w "git rev-parse --short HEAD") cmd0)
              "git rev-parse --short HEAD").execCount).stdout)),
         execStep (execStep (execStep (execStep (execStep w "git rev-parse --short HEAD") cmd0)
           "git rev-parse --short HEAD") (gitLogDefaultCmd 1)) (gitLogDefaultCmd 1)) := by
      rw [hafter]; simp only [h1]
      rw [mBind_ok (getHash_run filePath _ h2), if_neg hne,
        mBind_ok (getCommitDefault_run filePath 1 _ h3)]
      rcases h4 : ((execStep (execStep (execStep (execStep w "git rev-parse --short HEAD") cmd0)
          "git rev-parse --short HEAD") (gitLogDefaultCmd 1)).responses
          (execStep (execStep (execStep (execStep w "git rev-parse --short HEAD") cmd0)
            "git rev-parse --short HEAD") (gitLogDefaultCmd 1)).execCount).error with _ | e4
      · have hinner : tryCatchM (mBind (getCommit filePath 1 none none) (fun c2 => mPure (some c2)))
            (fun _ => mPure none)
            (execStep (execStep (execStep (execStep w "git rev-parse --short HEAD") cmd0)
              "git rev-parse --short HEAD") (gitLogDefaultCmd 1)) =
            (Except.ok (some (((execStep (execStep (execStep (execStep w "git rev-parse --short HEAD") cmd0)
              "git rev-parse --short HEAD") (gitLogDefaultCmd 1)).responses
              (execStep (execStep (execStep (execStep w "git rev-parse --short HEAD") cmd0)
                "git rev-parse --short HEAD") (gitLogDefaultCmd 1)).execCount).stdout)),
             execStep (execStep (execStep (execStep (execStep w "git rev-parse --short HEAD") cmd0)
               "git rev-parse --short HEAD") (gitLogDefaultCmd 1)) (gitLogDefaultCmd 1)) := by
          refine tryCatchM_ok ?_ _
          rw [mBind_ok (getCommitDefault_run filePath 1 _ h4)]
          rfl
        rw [mBind_ok hinner]
        rfl
      · have hinner : tryCatchM (mBind (getCommit filePath 1 none none) (fun c2 => mPure (some c2)))
            (fun _ => mPure none)
            (execStep (execStep (execStep (execStep w "git rev-parse --short HEAD") cmd0)
              "git rev-parse --short HEAD") (gitLogDefaultCmd 1)) =
            ((Except.ok none : Except Thrown (Option String)),
             execStep (execStep (execStep (execStep (execStep w "git rev-parse --short HEAD") cmd0)
               "git rev-parse --short HEAD") (gitLogDefaultCmd 1)) (gitLogDefaultCmd 1)) := by
          rw [tryCatchM_err (mBind_err (getCommitDefault_err filePath 1 _ e4 h4) _)]
          rfl
        rw [mBind_ok hinner]
        rfl
    exact tryCatchM_ok hTry _
  · intro h1 h2 hne e3 he3
    have hTry : updateGitPluginTry filePath cmd0 time w =
        (Except.error (Thrown.js e3),
         execStep (execStep (execStep (execStep w "git rev-parse --short HEAD") cmd0)
           "git rev-parse --short HEAD") (gitLogDefaultCmd 1)) := by
      rw [hafter]; simp only [h1]
      rw [mBind_ok (getHash_run filePath _ h2), if_neg hne,
        mBind_err (getCommitDefault_err filePath 1 _ e3 he3)]
    have : updateGitPlugin filePath cmd0 time w =
        (Except.ok (GitUpdateResult.failed (GitFailData.err (Thrown.js e3))),
         execStep (execStep (execStep (execStep w "git rev-parse --short HEAD") cmd0)
           "git rev-parse --short HEAD") (gitLogDefaultCmd 1)) := by
      show tryCatchM (updateGitPluginTry filePath cmd0 time)
        (fun e => mPure (GitUpdateResult.failed (GitFailData.err e))) w = _
      rw [tryCatchM_err hTry]
      rfl
    rw [this]

/-- Oracle trace refuting the bare iff of C3: pre-hash `abc`, successful
update command, post-hash `def` (differs), but the final commit-log command
reports a runner error `boom`. -/
def respC3 : Nat → ExecResult := fun n =>
  match n with
  | 0 => ⟨true, "abc\n", none⟩
  | 1 => ⟨true, "", none⟩
  | 2 => ⟨true, "def\n", none⟩
  | 3 => ⟨true, "", some ⟨"boom", none⟩⟩
  | _ => ⟨true, "", none⟩

/-- Concrete world for the C3 counterexample: an existing git repository. -/
def wC3 : World :=
  { responses := respC3, execCount := 0, calls := [], fsMap := fun _ => true,
    pkgs := fun _ => pkgEmpty, pkgCount := 0, npmPlugins := [], gitPlugins := [] }

/-- C3 counterexample: on `wC3` the pre- and post-update HEAD short hashes
differ (`abc` versus `def`), the update command reported no runner error, yet
`updateGitPlugin` returns `status: failed` (the commit-log retrieval threw),
refuting the claimed `ok ↔ hashes differ` equivalence. -/
theorem updateGitPlugin_iff_counterexample :
    (wC3.responses 0).stdout ≠ (wC3.responses 2).stdout ∧
    (wC3.responses 1).error = none ∧
    (updateGitPlugin "/p" "git pull" 120 wC3).1 =
      Except.ok (GitUpdateResult.failed (GitFailData.err (Thrown.js ⟨"boom", none⟩))) := by
  refine ⟨by decide, rfl, ?_⟩
  rfl

/-- Oracle trace for the amended-C3 happy path: hashes differ and the log
retrieval succeeds. -/
def respC3ok : Nat → ExecResult := fun n =>
  match n with
  | 0 => ⟨true, "abc\n", none⟩
  | 1 => ⟨true, "", none⟩
  | 2 => ⟨true, "def\n", none⟩
  | _ => ⟨true, "[10-02 12:00] fix \n", none⟩

/-- Concrete world for the amended-C3 witness. -/
def wC3ok : World :=
  { responses := respC3ok, execCount := 0, calls := [], fsMap := fun _ => true,
    pkgs := fun _ => pkgEmpty, pkgCount := 0, npmPlugins := [], gitPlugins := [] }

/-- C3 amended witness: differing hashes with a successful log retrieval give
`status: ok` carrying the awaited commit text. -/
theorem updateGitPlugin_hash_spec_witness :
    (updateGitPlugin "/p" "git pull" 120 wC3ok).1 =
      Except.ok (GitUpdateResult.ok "\n更新成功\n更新日志：[object Promise]" "[10-02 12:00] fix \n") := by
  have h := (updateGitPlugin_hash_spec "/p" "git pull" 120 wC3ok
      (execStep wC3ok "git rev-parse --short HEAD")
      (execStep (execStep wC3ok "git rev-parse --short HEAD") "git pull")
      (execStep (execStep (execStep wC3ok "git rev-parse --short HEAD") "git pull")
        "git rev-parse --short HEAD")
      rfl rfl (by decide) rfl rfl rfl rfl).2.2.2.1 rfl rfl (by decide) rfl
  rw [h]
  rfl

theorem mBind_pure (a : α) (f : α → M β) (w : World) : mBind (mPure a) f w = f a w := rfl

/-- An engine sort that keeps the array order (a legal implementation-defined
outcome for an inconsistent comparator). -/
def idSort : (String → String → Int) → List String → List String := fun _ l => l

/-- An engine sort that reverses the array (also a permutation, hence a legal
implementation-defined outcome for an inconsistent comparator). -/
def revSort : (String → String → Int) → List String → List String := fun _ l => l.reverse

/-- C9: when the probe phase pushed no batch fragment (`cmd` still the single
`pnpm up` entry) and recorded no rejection, `updateAllPkg` returns the literal
sentinel `没有可更新的插件~` and the final world is the post-probe world — the
batch upgrade command is never executed.  The second conjunct is the bridge to
the claim's wording: a probe whose resolutions succeed with `local === remote`
only appends a tip, leaving `cmd`, `state` and the recorded rejection
untouched, so a listing where every package resolves as up to date keeps
`cmd.length = 1`. -/
theorem updateAllPkg_no_outdated_spec :
    (∀ (eSort : (String → String → Int) → List String → List String) (w : World)
      (acc : ProbeAcc) (w1 : World),
      probePhase (w.pkgs w.pkgCount) (w.npmPlugins ++ ["node-karin"]) initProbeAcc (pkgStep w) =
        (Except.ok acc, w1) →
      acc.firstErr = none →
      acc.cmd.length = 1 →
      updateAllPkg eSort w = (Except.ok "没有可更新的插件~", w1)) ∧
    (∀ (pkg : Package) (raw : String) (acc0 : ProbeAcc) (w0 : World) (loc : Option String)
      (w2 : World) (rs : String) (w3 : World) (rem : Option String),
      getPkgVersion (jsReplaceOnce raw "npm:") w0 = (Except.ok loc, w2) →
      getRemotePkgVersion (jsReplaceOnce raw "npm:") "latest" w2 = (Except.ok rs, w3) →
      probeRemote pkg (jsReplaceOnce raw "npm:") rs = Except.ok rem →
      loc = rem →
      probeOne pkg raw acc0 w0 =
        (Except.ok { acc0 with tips := acc0.tips ++
          ["[" ++ jsReplaceOnce raw "npm:" ++ "][无更新] " ++ fmtOpt loc ++ " => " ++ fmtOpt rem] },
         w3)) := by
  constructor
  · intro eSort w acc w1 hprobe hfe hlen
    have hbody : updateAllPkgTry eSort w = (Except.ok "没有可更新的插件~", w1) := by
      simp only [updateAllPkgTry, mBind_ok (show getNpmPluginsM w = (Except.ok w.npmPlugins, w) from rfl),
        mBind_ok (getPkg_apply false w), mBind_ok hprobe, hfe, mBind_pure, if_pos hlen]
      rfl
    exact tryCatchM_ok hbody _
  · intro pkg raw acc0 w0 loc w2 rs w3 rem h1 h2 hpr hlr
    have hbody : mBind (getPkgVersion (jsReplaceOnce raw "npm:")) (fun loc =>
        mBind (getRemotePkgVersion (jsReplaceOnce raw "npm:") "latest") (fun remoteStr =>
          match probeRemote pkg (jsReplaceOnce raw "npm:") remoteStr with
          | Except.error e => mThrow e
          | Except.ok rem =>
            if loc = rem then
              mPure { acc0 with tips := acc0.tips ++
                ["[" ++ jsReplaceOnce raw "npm:" ++ "][无更新] " ++ fmtOpt loc ++ " => " ++ fmtOpt rem] }
            else
              mPure { acc0 with
                tips := acc0.tips ++
                  ["更新" ++ jsReplaceOnce raw "npm:" ++ " " ++ fmtOpt loc ++ " => " ++ fmtOpt rem],
                cmd := acc0.cmd ++ [jsReplaceOnce raw "npm:" ++ "@" ++ fmtOpt rem],
                state := jsRecordSet acc0.state (jsReplaceOnce raw "npm:") ⟨loc, rem⟩ })) w0 =
        (Except.ok { acc0 with tips := acc0.tips ++
          ["[" ++ jsReplaceOnce raw "npm:" ++ "][无更新] " ++ fmtOpt loc ++ " => " ++ fmtOpt rem] },
         w3) := by
      simp only [mBind_ok h1, mBind_ok h2, hpr, if_pos hlr]
      rfl
    exact tryCatchM_ok hbody _

/-- Oracle trace where every listed package is up to date: `aaa` resolves to
`1.0.0` locally and remotely, `node-karin` to `2.0.0` both ways. -/
def respC9 : Nat → ExecResult := fun n =>
  match n with
  | 0 => ⟨true, "aaa@1.0.0\n", none⟩
  | 1 => ⟨true, "1.0.0\n", none⟩
  | 2 => ⟨true, "node-karin@2.0.0\n", none⟩
  | _ => ⟨true, "2.0.0\n", none⟩

/-- Concrete world for the nothing-to-update scenario. -/
def wC9 : World :=
  { responses := respC9, execCount := 0, calls := [], fsMap := fun _ => false,
    pkgs := fun _ => pkgEmpty, pkgCount := 0, npmPlugins := ["npm:aaa"], gitPlugins := [] }

/-- C9 witness: on `wC9` the sentinel is returned and the call log holds
exactly the four resolution commands — no batch `pnpm up` was issued. -/
theorem updateAllPkg_no_outdated_witness :
    (updateAllPkg idSort wC9).1 = Except.ok "没有可更新的插件~" ∧
    (updateAllPkg idSort wC9).2.calls =
      [npmListCmd "aaa", npmShowCmd "aaa" "latest",
       npmListCmd "node-karin", npmShowCmd "node-karin" "latest"] := by
  have h := updateAllPkg_no_outdated_spec.1 idSort wC9
    { tips := ["\n------- 更新npm插件 --------", "[aaa][无更新] 1.0.0 => 1.0.0",
        "[node-karin][无更新] 2.0.0 => 2.0.0"],
      cmd := ["pnpm up"], state := [], firstErr := none }
    (execStep (execStep (execStep (execStep (pkgStep wC9) (npmListCmd "aaa"))
      (npmShowCmd "aaa" "latest")) (npmListCmd "node-karin")) (npmShowCmd "node-karin" "latest"))
    rfl rfl rfl
  rw [h]
  exact ⟨rfl, rfl⟩

theorem mBind_throw (e : Thrown) (f : α → M β) (w : World) :
    mBind (mThrow e) f w = (Except.error e, w) := rfl

/-- C5 amended: the `Promise.all` closures have no per-package try/catch — a
package whose resolution throws makes the recorded first rejection reject the
aggregate wait, the function-level catch turns that error into its message
string, and `updateAllPkg` returns that message instead of a batch report; the
remaining packages are still probed (the returned world is the full post-probe
world, with their commands in the call log) but their outcomes are not
reported. -/
theorem updateAllPkg_throw_spec (eSort : (String → String → Int) → List String → List String)
    (w : World) (acc : ProbeAcc) (w1 : World) (er : JsError)
    (hprobe : probePhase (w.pkgs w.pkgCount) (w.npmPlugins ++ ["node-karin"]) initProbeAcc
      (pkgStep w) = (Except.ok acc, w1))
    (hfe : acc.firstErr = some (Thrown.js er))
    (hmsg : er.message ≠ "") :
    updateAllPkg eSort w = (Except.ok er.message, w1) := by
  have hbody : updateAllPkgTry eSort w = (Except.error (Thrown.js er), w1) := by
    simp only [updateAllPkgTry,
      mBind_ok (show getNpmPluginsM w = (Except.ok w.npmPlugins, w) from rfl),
      mBind_ok (getPkg_apply false w), mBind_ok hprobe, hfe, mBind_throw]
  show tryCatchM (updateAllPkgTry eSort) jsCatchMessage w = _
  rw [tryCatchM_err hbody]
  simp [jsCatchMessage, hmsg, mPure]

/-- Oracle trace where package `aaa`'s local resolution throws (the stdout
carries the `empty` marker) while `node-karin` resolves to an outdated pair. -/
def respC5 : Nat → ExecResult := fun n =>
  match n with
  | 0 => ⟨true, "empty\n", none⟩
  | 1 => ⟨true, "node-karin@2.0.0\n", none⟩
  | 2 => ⟨true, "2.0.1\n", none⟩
  | _ => ⟨true, "", none⟩

/-- Concrete world for the resolution-throw scenario. -/
def wC5 : World :=
  { responses := respC5, execCount := 0, calls := [], fsMap := fun _ => false,
    pkgs := fun _ => pkgEmpty, pkgCount := 0, npmPlugins := ["npm:aaa"], gitPlugins := [] }

/-- C5 counterexample: on `wC5` one package's resolution throw makes
`updateAllPkg` return the error message, not a batch report — the remaining
package `node-karin` was probed (its two commands are in the call log) yet the
returned text does not mention it, refuting the claim that a per-package
try/catch keeps the batch report intact. -/
theorem updateAllPkg_isolation_counterexample :
    (updateAllPkg idSort wC5).1 = Except.ok "获取失败，aaa 未安装" ∧
    strHasSub "获取失败，aaa 未安装" "node-karin" = false ∧
    (updateAllPkg idSort wC5).2.calls =
      [npmListCmd "aaa", npmListCmd "node-karin", npmShowCmd "node-karin" "latest"] := by
  refine ⟨rfl, by decide, rfl⟩

/-- C5 amended witness: the amended theorem applied at `wC5` — the probe phase
records the `aaa` rejection first while still probing `node-karin`, and the
function returns the error's message. -/
theorem updateAllPkg_throw_spec_witness :
    (updateAllPkg revSort wC5).1 = Except.ok "获取失败，aaa 未安装" := by
  have h := updateAllPkg_throw_spec revSort wC5
    { tips := ["\n------- 更新npm插件 --------", "更新node-karin 2.0.0 => 2.0.1"],
      cmd := ["pnpm up", "node-karin@2.0.1"],
      state := [("node-karin", ⟨some "2.0.0", some "2.0.1"⟩)],
      firstErr := some (Thrown.js (notInstalledError "aaa")) }
    (execStep (execStep (execStep (pkgStep wC5) (npmListCmd "aaa"))
      (npmListCmd "node-karin")) (npmShowCmd "node-karin" "latest"))
    (notInstalledError "aaa") rfl rfl (by decide)
  rw [h]
  rfl

theorem execStep_pkgs (w : World) (c : String) : (execStep w c).pkgs = w.pkgs := rfl

theorem execStep_pkgCount (w : World) (c : String) : (execStep w c).pkgCount = w.pkgCount := rfl

/-- C10: when the `npm list` output contains neither marker nor a regex match
and the runner reports no error, and the package is absent from all three
dependency maps of the manifest, `getPkgVersion` resolves to `undefined`
(`Except.ok none`) rather than throwing, despite its declared `string` return
type; consequently `checkPkgUpdate` reports `status: yes` with
`local: undefined` whenever the remote version resolves, since `undefined` is
never string-equal to the remote. -/
theorem getPkgVersion_undefined_spec (name : String) (w : World)
    (hempty : strHasSub (w.responses w.execCount).stdout "empty" = false)
    (hextr : strHasSub (w.responses w.execCount).stdout "extraneous" = false)
    (hfind : findPkgVersion name (w.responses w.execCount).stdout = none)
    (herr : (w.responses w.execCount).error = none)
    (hdep : optLookup (w.pkgs w.pkgCount).dependencies name = none)
    (hdev : optLookup (w.pkgs w.pkgCount).devDependencies name = none)
    (hpeer : optLookup (w.pkgs w.pkgCount).peerDependencies name = none) :
    getPkgVersion name w = (Except.ok none, pkgStep (execStep w (npmListCmd name))) ∧
    (∀ r w2, getRemotePkgVersion name "latest" (pkgStep (execStep w (npmListCmd name))) =
        (Except.ok r, w2) →
      checkPkgUpdate name w = (Except.ok (CheckPkgResult.yes none r), w2)) := by
  have htail : getPkgVersionTail name (w.responses w.execCount) (execStep w (npmListCmd name)) =
      (Except.ok none, pkgStep (execStep w (npmListCmd name))) := by
    simp only [getPkgVersionTail, herr, mBind_ok (getPkg_apply false (execStep w (npmListCmd name))),
      execStep_pkgs, execStep_pkgCount, hdep, hdev, hpeer, jsOrOpt, mPure]
  have h1 : getPkgVersion name w = (Except.ok none, pkgStep (execStep w (npmListCmd name))) := by
    simp only [getPkgVersion, mBind_ok (execM_apply (npmListCmd name) w)]
    by_cases hs : (w.responses w.execCount).stdout = ""
    · rw [if_neg (not_not_intro hs)]
      exact htail
    · rw [if_pos hs]
      simp only [hempty, hextr, Bool.or_self, Bool.false_eq_true, if_false, hfind]
      exact htail
  refine ⟨h1, ?_⟩
  intro r w2 hrem
  have hbody : checkPkgUpdateTry name w = (Except.ok (CheckPkgResult.yes none r), w2) := by
    simp only [checkPkgUpdateTry, mBind_ok h1, mBind_ok hrem]
    simp [mPure]
  exact tryCatchM_ok hbody _

/-- Oracle trace for the undefined-local scenario: the list output has no
`name@x.y.z` line and no markers, then the remote resolves to `1.2.3`. -/
def respC10 : Nat → ExecResult := fun n =>
  match n with
  | 0 => ⟨true, "-- nothing matching here --\n", none⟩
  | _ => ⟨true, "1.2.3\n", none⟩

/-- Concrete world for the undefined-local scenario (empty manifest). -/
def wC10 : World :=
  { responses := respC10, execCount := 0, calls := [], fsMap := fun _ => false,
    pkgs := fun _ => pkgEmpty, pkgCount := 0, npmPlugins := [], gitPlugins := [] }

/-- C10 witness: on `wC10` the local version resolves to `undefined` without a
throw and `checkPkgUpdate` reports `yes` with an absent local version. -/
theorem getPkgVersion_undefined_witness :
    (getPkgVersion "foo" wC10).1 = Except.ok none ∧
    (checkPkgUpdate "foo" wC10).1 = Except.ok (CheckPkgResult.yes none "1.2.3") := by
  have h := getPkgVersion_undefined_spec "foo" wC10
    (by decide) (by decide) (by decide) rfl rfl rfl rfl
  constructor
  · rw [h.1]
  · have h2 := h.2 "1.2.3"
      (execStep (pkgStep (execStep wC10 (npmListCmd "foo"))) (npmShowCmd "foo" "latest")) rfl
    rw [h2]

/-- C6 amended: `result.sort((a) => a.includes('成功') ? -1 : 1)` uses a
comparator that ignores its second argument and is therefore not a consistent
comparison function, so ECMAScript leaves the sort order
implementation-defined; what the code guarantees is only that, for every
permutation-producing engine sort, the final report of `updateAllPkg`'s
success path is the newline-join of some permutation of the per-package
verdict lines — neither the successes-before-failures partition nor
within-bucket stability is guaranteed. -/
theorem updateAllPkg_report_perm
    (eSort : (String → String → Int) → List String → List String)
    (hperm : ∀ cmp l, List.Perm (eSort cmp l) l)
    (w : World) (acc : ProbeAcc) (w1 : World)
    (hprobe : probePhase (w.pkgs w.pkgCount) (w.npmPlugins ++ ["node-karin"]) initProbeAcc
      (pkgStep w) = (Except.ok acc, w1))
    (hfe : acc.firstErr = none)
    (hlen : ¬ acc.cmd.length = 1)
    (hbatch : (w1.responses w1.execCount).error = none) :
    updateAllPkg eSort w =
      (Except.ok (joinWith "\n" (eSort resultComparator
        (acc.state.map (mkResultLine (w1.pkgs w1.pkgCount))))),
       pkgStep (execStep w1 (joinWith " " acc.cmd))) ∧
    List.Perm (eSort resultComparator (acc.state.map (mkResultLine (w1.pkgs w1.pkgCount))))
      (acc.state.map (mkResultLine (w1.pkgs w1.pkgCount))) := by
  refine ⟨?_, hperm _ _⟩
  have hbody : updateAllPkgTry eSort w =
      (Except.ok (joinWith "\n" (eSort resultComparator
        (acc.state.map (mkResultLine (w1.pkgs w1.pkgCount))))),
       pkgStep (execStep w1 (joinWith " " acc.cmd))) := by
    simp only [updateAllPkgTry,
      mBind_ok (show getNpmPluginsM w = (Except.ok w.npmPlugins, w) from rfl),
      mBind_ok (getPkg_apply false w), mBind_ok hprobe, hfe, mBind_pure, if_neg hlen,
      mBind_ok (execM_apply (joinWith " " acc.cmd) w1), hbatch,
      mBind_ok (getPkg_apply true (execStep w1 (joinWith " " acc.cmd))),
      execStep_pkgs, execStep_pkgCount, mPure]
  exact tryCatchM_ok hbody _

/-- Oracle trace for the two-package batch scenario: `aaa` is outdated
(`1.0.0` to `1.0.1`) and upgrades successfully; `node-karin` is outdated
(`2.0.0` to `2.0.1`) but the re-read manifest still declares `2.0.0`. -/
def respC6 : Nat → ExecResult := fun n =>
  match n with
  | 0 => ⟨true, "aaa@1.0.0\n", none⟩
  | 1 => ⟨true, "1.0.1\n", none⟩
  | 2 => ⟨true, "node-karin@2.0.0\n", none⟩
  | 3 => ⟨true, "2.0.1\n", none⟩
  | _ => ⟨true, "", none⟩

/-- Manifest before the batch update. -/
def pkgC6 : Package := ⟨some [("aaa", "1.0.0"), ("node-karin", "2.0.0")], none, none⟩

/-- Manifest as re-read after the batch update: `aaa` bumped, `node-karin`
still at its old declared version. -/
def pkgC6after : Package := ⟨some [("aaa", "1.0.1"), ("node-karin", "2.0.0")], none, none⟩

/-- Concrete world for the two-package batch scenario. -/
def wC6 : World :=
  { responses := respC6, execCount := 0, calls := [], fsMap := fun _ => false,
    pkgs := fun n => match n with | 0 => pkgC6 | _ => pkgC6after, pkgCount := 0,
    npmPlugins := ["npm:aaa"], gitPlugins := [] }

/-- C6 counterexample: the reversal engine is a permutation-producing sort —
a legal outcome for the inconsistent comparator under ECMAScript's
implementation-defined clause — and under it `updateAllPkg`'s report places
the failure line before the success line, refuting the claimed
successes-before-failures stable partition. -/
theorem updateAllPkg_sort_counterexample :
    (updateAllPkg revSort wC6).1 =
      Except.ok ("[node-karin][更新失败] 请尝试手动更新 pnpm up node-karin@2.0.1" ++ "\n" ++
        "[aaa][更新成功] 1.0.0 => 1.0.1") ∧
    strHasSub "[node-karin][更新失败] 请尝试手动更新 pnpm up node-karin@2.0.1" "更新成功" = false ∧
    strHasSub "[aaa][更新成功] 1.0.0 => 1.0.1" "更新成功" = true ∧
    List.Perm (revSort resultComparator
      ["[aaa][更新成功] 1.0.0 => 1.0.1",
       "[node-karin][更新失败] 请尝试手动更新 pnpm up node-karin@2.0.1"])
      ["[aaa][更新成功] 1.0.0 => 1.0.1",
       "[node-karin][更新失败] 请尝试手动更新 pnpm up node-karin@2.0.1"] := by
  refine ⟨rfl, by decide, by decide, by decide⟩

/-- C6 amended witness: the amended theorem applied at `wC6` with the identity
engine — the report is the join of a permutation of the verdict lines. -/
theorem updateAllPkg_report_perm_witness :
    (updateAllPkg idSort wC6).1 =
      Except.ok ("[aaa][更新成功] 1.0.0 => 1.0.1" ++ "\n" ++
        "[node-karin][更新失败] 请尝试手动更新 pnpm up node-karin@2.0.1") := by
  have h := updateAllPkg_report_perm idSort (fun _ l => List.Perm.refl l) wC6
    { tips := ["\n------- 更新npm插件 --------", "更新aaa 1.0.0 => 1.0.1",
        "更新node-karin 2.0.0 => 2.0.1"],
      cmd := ["pnpm up", "aaa@1.0.1", "node-karin@2.0.1"],
      state := [("aaa", ⟨some "1.0.0", some "1.0.1"⟩), ("node-karin", ⟨some "2.0.0", some "2.0.1"⟩)],
      firstErr := none }
    (execStep (execStep (execStep (execStep (pkgStep wC6) (npmListCmd "aaa"))
      (npmShowCmd "aaa" "latest")) (npmListCmd "node-karin")) (npmShowCmd "node-karin" "latest"))
    rfl rfl (by decide) rfl
  rw [h.1]
  rfl

/-- Lemma: `updateGitPlugin` catches every throw of its body, so it never rejects. -/
theorem updateGitPlugin_no_throw (p c : String) (t : Nat) (w : World) :
    ∃ r w', updateGitPlugin p c t w = (Except.ok r, w') := by
  rcases h : updateGitPluginTry p c t w with ⟨e | r, w1⟩
  · exact ⟨GitUpdateResult.failed (GitFailData.err e), w1, tryCatchM_err h _⟩
  · exact ⟨r, w1, tryCatchM_ok h _⟩

/-- The schedule-driven settle phase accumulates exactly the
specification-level report lines, in schedule (completion) order, appended to
the running accumulator. -/
theorem gitSettleSched_run (cmd : String) (time : Nat) (list : List String) :
    ∀ (sched : List Nat) (acc : List String) (w : World),
    gitSettleSched cmd time list sched acc w =
      (Except.ok (acc ++ (gitReportLinesSched cmd time list sched w).1),
       (gitReportLinesSched cmd time list sched w).2) := by
  intro sched
  induction sched with
  | nil =>
    intro acc w
    simp [gitSettleSched, gitReportLinesSched, mPure]
  | cons i rest ih =>
    intro acc w
    rcases hi : list.get? i with _ | raw
    · simp only [gitSettleSched, gitReportLinesSched, hi]
      exact ih acc w
    · obtain ⟨r, w1, hr⟩ := updateGitPlugin_no_throw ("./plugins/" ++ jsReplaceOnce raw "git:") cmd time w
      have hone : gitSettleOne cmd time raw w =
          (Except.ok (lineOfOutcome (jsReplaceOnce raw "git:") r), w1) := by
        simp only [gitSettleOne, mBind_ok hr, mPure]
      have hinner : tryCatchM (mBind (gitSettleOne cmd time raw) (fun l => mPure (some l)))
          (fun _ => mPure none) w =
          (Except.ok (some (lineOfOutcome (jsReplaceOnce raw "git:") r)), w1) :=
        tryCatchM_ok (by rw [mBind_ok hone]; rfl) _
      have hrl : gitReportLinesSched cmd time list (i :: rest) w =
          (lineOfOutcome (jsReplaceOnce raw "git:") r :: (gitReportLinesSched cmd time list rest w1).1,
           (gitReportLinesSched cmd time list rest w1).2) := by
        simp only [gitReportLinesSched, hi, hr]
      simp only [gitSettleSched, hi, mBind_ok hinner]
      rw [ih (acc ++ [lineOfOutcome (jsReplaceOnce raw "git:") r]) w1, hrl]
      simp

/-- The specification-level report has exactly one line per scheduled closure
whose index is in range — in particular one line per plugin when the schedule
enumerates every listing index. -/
theorem gitReportLinesSched_length (cmd : String) (time : Nat) (list : List String) :
    ∀ (sched : List Nat) (w : World), (∀ i ∈ sched, i < list.length) →
    (gitReportLinesSched cmd time list sched w).1.length = sched.length := by
  intro sched
  induction sched with
  | nil => intro w _; rfl
  | cons i rest ih =>
    intro w hvalid
    have hi : i < list.length := hvalid i (List.mem_cons_self i rest)
    have hraw : list.get? i = some (list.get ⟨i, hi⟩) := List.get?_eq_get hi
    obtain ⟨r, w1, hr⟩ := updateGitPlugin_no_throw
      ("./plugins/" ++ jsReplaceOnce (list.get ⟨i, hi⟩) "git:") cmd time w
    have hrest := ih w1 (fun j hj => hvalid j (List.mem_cons_of_mem i hj))
    simp only [gitReportLinesSched, hraw, hr, hrest, List.length_cons]

/-- C4 amended: for a non-empty git-plugin listing and every completion
schedule that enumerates each listing index exactly once (any permutation —
the code places no constraint on which concurrent update finishes first),
`updateAllGitPlugin` returns the newline-join of `gitReportLinesSched`: one
outcome line per plugin, each marked `更新成功`/`更新失败` by that plugin's
own `updateGitPlugin` outcome at its completion slot, and the report has
exactly as many lines as there are listed plugins however many of them fail
(no early abort); the lines appear in completion order, which need not be the
registry listing order. -/
theorem updateAllGitPlugin_spec (sched : List Nat) (cmd : String) (time : Nat) (w : World)
    (hne : w.gitPlugins ≠ [])
    (hperm : List.Perm sched (List.range w.gitPlugins.length)) :
    updateAllGitPlugin sched cmd time w =
      (Except.ok (joinWith "\n" (gitReportLinesSched cmd time w.gitPlugins sched w).1),
       (gitReportLinesSched cmd time w.gitPlugins sched w).2) ∧
    (gitReportLinesSched cmd time w.gitPlugins sched w).1.length = w.gitPlugins.length := by
  have hvalid : ∀ i ∈ sched, i < w.gitPlugins.length := fun i hi =>
    List.mem_range.mp (hperm.mem_iff.mp hi)
  have hschedlen : sched.length = w.gitPlugins.length := by
    rw [hperm.length_eq, List.length_range]
  constructor
  · have hbody : updateAllGitPluginTry sched cmd time w =
        (Except.ok (joinWith "\n" (gitReportLinesSched cmd time w.gitPlugins sched w).1),
         (gitReportLinesSched cmd time w.gitPlugins sched w).2) := by
      simp only [updateAllGitPluginTry,
        mBind_ok (show getGitPluginsM w = (Except.ok w.gitPlugins, w) from rfl)]
      rw [if_neg (fun h => hne (List.length_eq_zero.mp h))]
      rw [mBind_ok (gitSettleSched_run cmd time w.gitPlugins sched [] w)]
      simp [mPure]
    exact tryCatchM_ok hbody _
  · exact (gitReportLinesSched_length cmd time w.gitPlugins sched w hvalid).trans hschedlen

/-- Oracle trace for the git batch scenario: plugin `b` updates successfully
(hash `abc` to `def`, then two log retrievals). -/
def respC4 : Nat → ExecResult := fun n =>
  match n with
  | 0 => ⟨true, "abc\n", none⟩
  | 1 => ⟨true, "", none⟩
  | 2 => ⟨true, "def\n", none⟩
  | _ => ⟨true, "[10-02 12:00] fix \n", none⟩

/-- Concrete world for the git batch scenario: plugin `a`'s path does not
exist, plugin `b` is a real repository. -/
def wC4 : World :=
  { responses := respC4, execCount := 0, calls := [],
    fsMap := fun p => p = "./plugins/b" || p = "./plugins/b/.git",
    pkgs := fun _ => pkgEmpty, pkgCount := 0, npmPlugins := [],
    gitPlugins := ["git:a", "git:b"] }

/-- Oracle trace for the order counterexample: both listed plugins are real
repositories and both update successfully; the trace serves whichever plugin's
commands run first. -/
def respC4x : Nat → ExecResult := fun n =>
  match n with
  | 0 => ⟨true, "abc\n", none⟩
  | 1 => ⟨true, "", none⟩
  | 2 => ⟨true, "def\n", none⟩
  | 3 => ⟨true, "[10-02 12:00] fix \n", none⟩
  | 4 => ⟨true, "[10-02 12:00] fix \n", none⟩
  | 5 => ⟨true, "ghi\n", none⟩
  | 6 => ⟨true, "", none⟩
  | 7 => ⟨true, "jkl\n", none⟩
  | _ => ⟨true, "[10-03 08:00] feat \n", none⟩

/-- Concrete world for the completion-order counterexample: both plugin paths
exist, the listing is `[git:a, git:b]`. -/
def wC4x : World :=
  { responses := respC4x, execCount := 0, calls := [],
    fsMap := fun p => p = "./plugins/a" || p = "./plugins/a/.git" ||
      p = "./plugins/b" || p = "./plugins/b/.git",
    pkgs := fun _ => pkgEmpty, pkgCount := 0, npmPlugins := [],
    gitPlugins := ["git:a", "git:b"] }

/-- C4 counterexample: under the completion schedule `[1, 0]` — plugin `b`'s
concurrent update finishes before plugin `a`'s, a timing the code does not
exclude — the report's first line belongs to `b`, the second-listed plugin,
refuting the claim that the outcome lines appear in the registry listing
order `[git:a, git:b]`. -/
theorem updateAllGitPlugin_order_counterexample :
    wC4x.gitPlugins = ["git:a", "git:b"] ∧
    List.Perm [1, 0] (List.range wC4x.gitPlugins.length) ∧
    (updateAllGitPlugin [1, 0] "git pull" 120 wC4x).1 =
      Except.ok ("[b][更新成功] \n更新成功\n更新日志：[object Promise]" ++ "\n" ++
        "[a][更新成功] \n更新成功\n更新日志：[object Promise]") := by
  refine ⟨rfl, by decide, rfl⟩

/-- C4 amended witness: over two plugins of which the first fails (missing
path), under the listing-order schedule the report has exactly two lines, the
first marked failed and the second marked success — failure isolated, no early
abort. -/
theorem updateAllGitPlugin_spec_witness :
    (updateAllGitPlugin [0, 1] "git pull" 120 wC4).1 =
      Except.ok ("[a][更新失败] 路径不存在" ++ "\n" ++
        "[b][更新成功] \n更新成功\n更新日志：[object Promise]") ∧
    (gitReportLinesSched "git pull" 120 wC4.gitPlugins [0, 1] wC4).1.length = 2 := by
  have h := updateAllGitPlugin_spec [0, 1] "git pull" 120 wC4 (by decide) (by decide)
  constructor
  · rw [h.1]
    rfl
  · rw [h.2]
    rfl
